import Mathlib

/-!
Verification of the `ThreadsafeQueue<T>` class from `src/ThreadsafeQueue.cpp`.

The class wraps a `std::queue<T>` (here: a `List T` with the front of the
queue at the head and pushes appended at the back) behind a single mutex.
Every public operation holds the lock for its whole duration, so operations
on one instance are serialized: we embed each operation as a pure function
on the queue state, and model concurrent executions as arbitrary sequences
of these atomic operations (the serialization order being the
lock-acquisition order).

`std::shared_ptr<T>` is modelled as `Option T`: `none` is the null pointer,
and `std::make_shared<T>(x)` is `some x`.  The `empty_queue` exception is
modelled as an error value carried by `Except`.
-/

/-- The `empty_queue` exception type thrown by the pop operations. -/
structure empty_queue : Type where

/-- `empty_queue::what()` returns the fixed diagnostic string. -/
def empty_queue.what (_ : empty_queue) : String := "queue empty exception"

/-- `ThreadsafeQueue<T>`: the mutex is not part of the state proper (it
carries no data); the data member is `std::queue<T> theQueue`, front at the
head of the list. -/
structure ThreadsafeQueue (T : Type) : Type where
  theQueue : List T
deriving Repr, DecidableEq

namespace ThreadsafeQueue

variable {T : Type}

/-- The default constructor `ThreadsafeQueue()` makes an empty queue. -/
def new : ThreadsafeQueue T := ⟨[]⟩

/-- The copy constructor: locks `other.m` and copies `other.theQueue`
(a deep element-wise copy, as `std::queue` copy assignment is). -/
def copyCtor (other : ThreadsafeQueue T) : ThreadsafeQueue T :=
  ⟨other.theQueue⟩

/-- `bool empty() const`: locks, reads `theQueue.empty()`, unlocks.  We
return the (unchanged) queue alongside the result to make the absence of
mutation explicit. -/
def empty (q : ThreadsafeQueue T) : Bool × ThreadsafeQueue T :=
  (q.theQueue.isEmpty, q)

/-- `void pop(T& value)` (the spec's `tryRemoveInto`): if the queue is
empty, throw `empty_queue` (the queue and the caller's slot are untouched);
otherwise `value = theQueue.front(); theQueue.pop()`.  The result is
(outcome, queue after, slot after). -/
def pop_ref (q : ThreadsafeQueue T) (value : T) :
    Except empty_queue Unit × ThreadsafeQueue T × T :=
  match q.theQueue with
  | [] => (Except.error ⟨⟩, q, value)
  | v :: rest => (Except.ok (), ⟨rest⟩, v)

/-- `std::shared_ptr<T> pop()` (the spec's `tryRemove`): if the queue is
empty, throw `empty_queue`; otherwise build
`make_shared<T>(theQueue.front())` (a non-null pointer to a fresh copy of
the front element), then `theQueue.pop()` and return the pointer. -/
def pop_ptr (q : ThreadsafeQueue T) :
    Except empty_queue (Option T) × ThreadsafeQueue T :=
  match q.theQueue with
  | [] => (Except.error ⟨⟩, q)
  | v :: rest => (Except.ok (some v), ⟨rest⟩)

/-- `void push(T new_value)`: locks and appends `new_value` at the back.
The return type has no error alternative: push always succeeds (the only
C++ failure mode is `bad_alloc`, which is not a typed error of the API). -/
def push (q : ThreadsafeQueue T) (new_value : T) : ThreadsafeQueue T :=
  ⟨q.theQueue ++ [new_value]⟩

/-- Pushing a whole list of values, one `push` call per element. -/
def pushAll (q : ThreadsafeQueue T) (ps : List T) : ThreadsafeQueue T :=
  ps.foldl push q

/-- Draining loop: perform `n` `pop()` calls, collecting the values held by
the successfully returned (non-null) pointers, in call order. -/
def drain_ptr (q : ThreadsafeQueue T) : Nat → List T × ThreadsafeQueue T
  | 0 => ([], q)
  | n + 1 =>
    match pop_ptr q with
    | (Except.ok (some v), q2) =>
      let r := drain_ptr q2 n
      (v :: r.1, r.2)
    | (Except.ok none, q2) => drain_ptr q2 n
    | (Except.error _, q2) => drain_ptr q2 n

/-- Draining loop for `pop(T&)`: perform `n` calls with slot initialized to
`d`, collecting the slot contents after each successful call. -/
def drain_ref (q : ThreadsafeQueue T) (d : T) :
    Nat → List T × ThreadsafeQueue T
  | 0 => ([], q)
  | n + 1 =>
    match pop_ref q d with
    | (Except.ok _, q2, v) =>
      let r := drain_ref q2 d n
      (v :: r.1, r.2)
    | (Except.error _, q2, _) => drain_ref q2 d n

end ThreadsafeQueue

/-!
Serialized-trace semantics.  The single mutex serializes all operations on
one instance, and each pop fuses the `front()` read with the structural
`pop()` under the lock, so any concurrent execution is observationally one
sequence of atomic operations (ordered by lock acquisition).  An `Op` is
one public call; `step` runs it on a state consisting of the queue together
with the list of values successfully removed so far (in removal order).
-/

/-- One public call on a `ThreadsafeQueue` instance. -/
inductive Op (T : Type) : Type where
  | push (v : T)
  | pop_ref
  | pop_ptr
  | isEmpty
deriving Repr, DecidableEq

namespace ThreadsafeQueue

variable {T : Type}

/-- A trace state: the queue plus the values removed so far, oldest first. -/
def TState (T : Type) : Type := ThreadsafeQueue T × List T

/-- Run one atomic operation.  `pop_ref` is run with the caller's slot
holding `d`; a failed pop removes nothing. -/
def step [Inhabited T] (s : TState T) : Op T → TState T
  | Op.push v => (s.1.push v, s.2)
  | Op.pop_ref =>
    match pop_ref s.1 (default : T) with
    | (Except.ok _, q2, v) => (q2, s.2 ++ [v])
    | (Except.error _, q2, _) => (q2, s.2)
  | Op.pop_ptr =>
    match pop_ptr s.1 with
    | (Except.ok h, q2) => (q2, s.2 ++ h.toList)
    | (Except.error _, q2) => (q2, s.2)
  | Op.isEmpty => ((empty s.1).2, s.2)

/-- Run a whole serialized trace from a state. -/
def runFrom [Inhabited T] (s : TState T) (t : List (Op T)) : TState T :=
  t.foldl step s

/-- Run a trace from a freshly constructed queue. -/
def run [Inhabited T] (t : List (Op T)) : TState T :=
  runFrom (new, []) t

/-- `empty()` gives a point-in-time `Bool`; `emptySeq q n` is the list of
results of `n` consecutive `empty()` calls with no intervening push/pop. -/
def emptySeq (q : ThreadsafeQueue T) : Nat → List Bool
  | 0 => []
  | n + 1 => (empty q).1 :: emptySeq (empty q).2 n

/-- Applying a single atomic operation to a queue alone (the removed-values
accumulator discarded). -/
def apply1 [Inhabited T] (q : ThreadsafeQueue T) (o : Op T) :
    ThreadsafeQueue T :=
  (step (q, []) o).1

/-- The values pushed by a trace, in trace (= lock-acquisition) order. -/
def pushedOf : List (Op T) → List T
  | [] => []
  | Op.push v :: rest => v :: pushedOf rest
  | _ :: rest => pushedOf rest

/-- Key invariant: at every point of a trace, the values removed so far
followed by the values still in the queue are exactly the values pushed so
far, in push order. -/
theorem runFrom_invariant [Inhabited T] (t : List (Op T)) :
    ∀ s : TState T,
      (runFrom s t).2 ++ (runFrom s t).1.theQueue =
        (s.2 ++ s.1.theQueue) ++ pushedOf t := by
  induction t with
  | nil => intro s; simp [runFrom, pushedOf]
  | cons o rest ih =>
    intro s
    have hstep : (step s o).2 ++ (step s o).1.theQueue =
        (s.2 ++ s.1.theQueue) ++ pushedOf [o] := by
      cases o with
      | push v => simp [step, push, pushedOf]
      | pop_ref =>
        cases hq : s.1.theQueue with
        | nil =>
          simp [step, pop_ref, hq, pushedOf]
        | cons v rest2 =>
          simp [step, pop_ref, hq, pushedOf]
      | pop_ptr =>
        cases hq : s.1.theQueue with
        | nil =>
          simp [step, pop_ptr, hq, pushedOf]
        | cons v rest2 =>
          simp [step, pop_ptr, hq, pushedOf]
      | isEmpty => simp [step, empty, pushedOf]
    have hrest := ih (step s o)
    have : runFrom s (o :: rest) = runFrom (step s o) rest := by
      simp [runFrom]
    rw [this, hrest, hstep]
    cases o <;> simp [pushedOf]

/-- Specialization to a trace run from the empty queue: removed values plus
queue contents are exactly the pushed values, in order. -/
theorem run_invariant [Inhabited T] (t : List (Op T)) :
    (run t).2 ++ (run t).1.theQueue = pushedOf t := by
  have h := runFrom_invariant t ((new : ThreadsafeQueue T), [])
  simpa [run, new] using h

end ThreadsafeQueue

/-!
Multi-instance model for duplication.  The only way two queue objects can
be related in this API is the copy constructor (copy assignment is
`= delete`d, so it does not appear among the operations at all).  A world
is a list of live queue instances; a `HeapOp` either runs one public call
on one instance or duplicates one instance into a fresh one.
-/

/-- An operation on a world of queue instances: run a public call on
instance `i`, or construct a new instance as a copy of instance `i`. -/
inductive HeapOp (T : Type) : Type where
  | call (i : Nat) (o : Op T)
  | duplicate (i : Nat)
deriving Repr, DecidableEq

namespace ThreadsafeQueue

variable {T : Type}

/-- Run one `HeapOp` on a world of instances.  The copy constructor copies
`other.theQueue` under `other`'s lock, yielding an independent instance
appended to the world. -/
def heapStep [Inhabited T] (w : List (ThreadsafeQueue T)) :
    HeapOp T → List (ThreadsafeQueue T)
  | HeapOp.call i o => w.set i (apply1 (w.getD i new) o)
  | HeapOp.duplicate i => w ++ [copyCtor (w.getD i new)]

/-- Helper: `pushAll` appends the pushed values at the back, in order. -/
theorem pushAll_theQueue (ps : List T) :
    ∀ q : ThreadsafeQueue T,
      (pushAll q ps).theQueue = q.theQueue ++ ps := by
  induction ps with
  | nil => intro q; simp [pushAll]
  | cons v rest ih =>
    intro q
    have : pushAll q (v :: rest) = pushAll (q.push v) rest := by
      simp [pushAll]
    rw [this, ih (q.push v)]
    simp [push]

/-- Helper: draining a queue holding exactly `l` with `l.length` calls to
`pop()` returns the elements of `l` in order and leaves the queue empty. -/
theorem drain_ptr_exact (l : List T) :
    drain_ptr ⟨l⟩ l.length = (l, (⟨[]⟩ : ThreadsafeQueue T)) := by
  induction l with
  | nil => simp [drain_ptr]
  | cons v rest ih =>
    simp [drain_ptr, pop_ptr, ih]

/-- Helper: the same drain via `pop(T&)` with slot initialized to `d`. -/
theorem drain_ref_exact (l : List T) (d : T) :
    drain_ref ⟨l⟩ d l.length = (l, (⟨[]⟩ : ThreadsafeQueue T)) := by
  induction l with
  | nil => simp [drain_ref]
  | cons v rest ih =>
    simp [drain_ref, pop_ref, ih]

end ThreadsafeQueue

open ThreadsafeQueue

/-- Claim C1 (FIFO order): pushing `p1, …, pn` on a fresh queue with no
interleaved removes and then performing `n` removes — either via
`pop()` (`tryRemove`) or via `pop(T&)` (`tryRemoveInto`) — yields exactly
`p1, …, pn` in that order. -/
theorem C1_fifo_order {T : Type} (ps : List T) (d : T) :
    (drain_ptr (pushAll new ps) ps.length).1 = ps ∧
      (drain_ref (pushAll new ps) d ps.length).1 = ps := by
  have hq : pushAll (new : ThreadsafeQueue T) ps = ⟨ps⟩ := by
    have h := pushAll_theQueue ps (new : ThreadsafeQueue T)
    simp only [new, List.nil_append] at h
    exact congrArg ThreadsafeQueue.mk h
  rw [hq, drain_ptr_exact, drain_ref_exact]
  exact ⟨rfl, rfl⟩

/-- Claim C2 (raises iff empty, atomic on error): both remove operations
fail with the `empty_queue` error exactly when the queue holds zero
elements, and a failing remove leaves the queue contents unchanged. -/
theorem C2_error_iff_empty {T : Type} (q : ThreadsafeQueue T) (slot : T) :
    ((pop_ref q slot).1 = Except.error ⟨⟩ ↔ q.theQueue.length = 0) ∧
      ((pop_ptr q).1 = Except.error ⟨⟩ ↔ q.theQueue.length = 0) ∧
      (q.theQueue.length = 0 →
        (pop_ref q slot).2.1 = q ∧ (pop_ptr q).2 = q) := by
  obtain ⟨l⟩ := q
  cases l <;> simp [pop_ref, pop_ptr]

/-- Claim C2 witness: on a freshly constructed (empty) queue both removes
fail and leave the queue unchanged. -/
theorem C2_error_iff_empty_witness :
    (pop_ref (⟨[]⟩ : ThreadsafeQueue Nat) 0).2.1 = ⟨[]⟩ ∧
      (pop_ptr (⟨[]⟩ : ThreadsafeQueue Nat)).2 = ⟨[]⟩ :=
  (C2_error_iff_empty (⟨[]⟩ : ThreadsafeQueue Nat) 0).2.2 rfl

/-- Claim C3 (`tryRemoveInto` success): on a non-empty queue, `pop(T&)`
writes the front element of the pre-state into the caller's slot, leaves
exactly the tail in unchanged order, and succeeds. -/
theorem C3_pop_ref_success {T : Type} (q : ThreadsafeQueue T) (slot v : T)
    (l : List T) (h : q.theQueue = v :: l) :
    pop_ref q slot = (Except.ok (), ⟨l⟩, v) := by
  obtain ⟨ql⟩ := q
  simp only at h
  subst h
  simp [pop_ref]

/-- Claim C3 witness: popping `⟨[1, 2]⟩` into a slot holding `0` writes `1`
and leaves `⟨[2]⟩`. -/
theorem C3_pop_ref_success_witness :
    pop_ref (⟨[1, 2]⟩ : ThreadsafeQueue Nat) 0 =
      (Except.ok (), ⟨[2]⟩, 1) :=
  C3_pop_ref_success (⟨[1, 2]⟩ : ThreadsafeQueue Nat) 0 1 [2] rfl

/-- Claim C7 (push postcondition): `push` appends the value at the back,
leaving all earlier elements unchanged in order; its result type has no
error alternative, so it never fails with a typed error. -/
theorem C7_push_appends {T : Type} (q : ThreadsafeQueue T) (v : T) :
    (q.push v).theQueue = q.theQueue ++ [v] := by
  simp [push]

/-- Claim C8 (failed remove leaves slot untouched): when `pop(T&)` is
called on an empty queue it throws before any write, so the caller's slot
still holds exactly its prior value (and the queue is unchanged). -/
theorem C8_failed_pop_ref_frame {T : Type} (q : ThreadsafeQueue T)
    (slot : T) (h : q.theQueue.length = 0) :
    pop_ref q slot = (Except.error ⟨⟩, q, slot) := by
  obtain ⟨l⟩ := q
  cases l with
  | nil => simp [pop_ref]
  | cons a rest => simp at h

/-- Claim C8 witness: on the empty queue with slot holding `42`, the slot
still holds `42` after the failed call. -/
theorem C8_failed_pop_ref_frame_witness :
    pop_ref (⟨[]⟩ : ThreadsafeQueue Nat) 42 =
      (Except.error ⟨⟩, ⟨[]⟩, 42) :=
  C8_failed_pop_ref_frame (⟨[]⟩ : ThreadsafeQueue Nat) 42 rfl

/-- Claim C9 (successful `tryRemove` handle): on a non-empty queue,
`pop()` returns a non-null handle (`some _`, the model of
`make_shared`'s never-null result) holding a copy of the pre-state's front
element, and removes exactly that element. -/
theorem C9_pop_ptr_success {T : Type} (q : ThreadsafeQueue T) (v : T)
    (l : List T) (h : q.theQueue = v :: l) :
    pop_ptr q = (Except.ok (some v), ⟨l⟩) := by
  obtain ⟨ql⟩ := q
  simp only at h
  subst h
  simp [pop_ptr]

/-- Claim C9 witness: popping `⟨[7, 8]⟩` yields the non-null handle
`some 7` and leaves `⟨[8]⟩`. -/
theorem C9_pop_ptr_success_witness :
    pop_ptr (⟨[7, 8]⟩ : ThreadsafeQueue Nat) =
      (Except.ok (some 7), ⟨[8]⟩) :=
  C9_pop_ptr_success (⟨[7, 8]⟩ : ThreadsafeQueue Nat) 7 [8] rfl

/-- Claim C4 (no loss, no duplication): every serialized trace of atomic
pushes and removes (the lock serializes concurrent calls, and each pop
fuses peek-front with remove-front) satisfies: removed values followed by
the remaining queue are exactly the pushed values in order, the removed
values are the first pushed values, and with pairwise-distinct pushed
payloads no value is removed twice and every removed value was pushed. -/
theorem C4_no_loss_no_dup {T : Type} [Inhabited T] (t : List (Op T)) :
    (run t).2 ++ (run t).1.theQueue = pushedOf t ∧
      (run t).2 = (pushedOf t).take (run t).2.length ∧
      ((pushedOf t).Nodup →
        (run t).2.Nodup ∧ ∀ v ∈ (run t).2, v ∈ pushedOf t) := by
  have h := run_invariant t
  refine ⟨h, ?_, ?_⟩
  · rw [← h]
    exact (List.take_left _ _).symm
  · intro hnd
    have hsub : List.Sublist (run t).2 (pushedOf t) := by
      rw [← h]
      exact List.sublist_append_left _ _
    constructor
    · exact List.Nodup.sublist hsub hnd
    · intro v hv
      rw [← h]
      exact List.mem_append_left _ hv

/-- Claim C4 witness: for the trace push 1, push 2, pop, the removed
values are duplicate-free. -/
theorem C4_no_loss_no_dup_witness :
    (run [Op.push 1, Op.push 2, (Op.pop_ptr : Op Nat)]).2.Nodup :=
  ((C4_no_loss_no_dup [Op.push 1, Op.push 2, (Op.pop_ptr : Op Nat)]).2.2
    (by decide)).1

/-- Claim C5 (duplication correctness and independence): copying instance
`i` of a world yields a fresh instance with identical contents and order;
a public call on instance `i` leaves every other instance unchanged, and
duplication leaves every pre-existing instance unchanged.  Whole-object
copy assignment is `= delete`d in the source, so no `HeapOp` reassigns an
existing instance. -/
theorem C5_duplication {T : Type} [Inhabited T]
    (w : List (ThreadsafeQueue T)) (i j : Nat) (o : Op T) :
    ((heapStep w (HeapOp.duplicate i)).getD w.length new).theQueue =
        (w.getD i new).theQueue ∧
      (j ≠ i → (heapStep w (HeapOp.call i o)).getD j new = w.getD j new) ∧
      (j < w.length →
        (heapStep w (HeapOp.duplicate i)).getD j new = w.getD j new) := by
  refine ⟨?_, ?_, ?_⟩
  · have hx : (w ++ [copyCtor (w.getD i new)])[w.length]? =
        some (copyCtor (w.getD i new)) := by
      rw [List.getElem?_append_right (Nat.le_refl _)]
      simp
    simp [heapStep, List.getD, hx, copyCtor]
  · intro hji
    simp [heapStep, List.getD]
    rw [List.getElem?_set_ne (fun he => hji he.symm)]
  · intro hj
    simp [heapStep, List.getD]
    rw [List.getElem?_append_left hj]

/-- Claim C5 witness: in a world of two queues, pushing `7` on instance 0
leaves instance 1 exactly as it was. -/
theorem C5_duplication_witness :
    (heapStep [(⟨[1]⟩ : ThreadsafeQueue Nat), ⟨[2]⟩]
        (HeapOp.call 0 (Op.push 7))).getD 1 new =
      [(⟨[1]⟩ : ThreadsafeQueue Nat), ⟨[2]⟩].getD 1 new :=
  (C5_duplication [(⟨[1]⟩ : ThreadsafeQueue Nat), ⟨[2]⟩] 0 1
    (Op.push 7)).2.1 (by decide)

/-- Claim C6 (emptiness check pure and idempotent): `empty()` reports true
exactly when the queue holds zero elements, leaves the queue unchanged,
and any number of consecutive calls with no intervening push/pop all
return the same value. -/
theorem C6_isEmpty_pure {T : Type} (q : ThreadsafeQueue T) :
    ((empty q).1 = true ↔ q.theQueue.length = 0) ∧
      (empty q).2 = q ∧
      ∀ n : Nat, emptySeq q n = List.replicate n (empty q).1 := by
  refine ⟨?_, rfl, ?_⟩
  · obtain ⟨l⟩ := q
    cases l <;> simp [empty]
  · intro n
    induction n with
    | zero => simp [emptySeq]
    | succ k ih =>
      simp only [emptySeq, List.replicate_succ]
      exact congrArg (List.cons (empty q).1) ih

/-- Claim C10 (length-delta invariant): push grows the element count by
one, a successful pop shrinks it by one, a failed pop and `empty()` leave
the queue unchanged, and over any trace the count of elements is the
number of pushes minus the number of successful removes. -/
theorem C10_length_delta {T : Type} [Inhabited T]
    (q : ThreadsafeQueue T) (slot v : T) (t : List (Op T)) :
    (q.push v).theQueue.length = q.theQueue.length + 1 ∧
      (q.theQueue.length ≠ 0 →
        (pop_ref q slot).2.1.theQueue.length + 1 = q.theQueue.length ∧
          (pop_ptr q).2.theQueue.length + 1 = q.theQueue.length) ∧
      (q.theQueue.length = 0 →
        (pop_ref q slot).2.1 = q ∧ (pop_ptr q).2 = q) ∧
      (empty q).2 = q ∧
      (run t).2.length + (run t).1.theQueue.length = (pushedOf t).length := by
  refine ⟨?_, ?_, ?_, rfl, ?_⟩
  · simp [push]
  · intro h
    obtain ⟨l⟩ := q
    cases l with
    | nil => simp at h
    | cons a rest => simp [pop_ref, pop_ptr]
  · intro h
    obtain ⟨l⟩ := q
    cases l with
    | nil => simp [pop_ref, pop_ptr]
    | cons a rest => simp at h
  · have h := congrArg List.length (run_invariant t)
    simpa using h

/-- Claim C10 witness: popping a one-element queue by either operation
brings its length from one back to zero. -/
theorem C10_length_delta_witness :
    (pop_ref (⟨[5]⟩ : ThreadsafeQueue Nat) 0).2.1.theQueue.length + 1 =
        (⟨[5]⟩ : ThreadsafeQueue Nat).theQueue.length ∧
      (pop_ptr (⟨[5]⟩ : ThreadsafeQueue Nat)).2.theQueue.length + 1 =
        (⟨[5]⟩ : ThreadsafeQueue Nat).theQueue.length :=
  (C10_length_delta (⟨[5]⟩ : ThreadsafeQueue Nat) 0 0 []).2.1 (by decide)
